import Mathlib

/-!
A shallow embedding of the configuration-validation core of oauth2_proxy
(`options.go`, `main.go`): the secret codec, the signature-key parser,
the provider configurator and the aggregating `Validate` pass, together
with theorems settling the specification claims about them.

Go strings are UTF-8 byte sequences; `goBytes` is the `[]byte(s)`
conversion and `goLen` is Go's `len` on strings (a byte count).
External collaborators that are not part of the two source files
(Go's `net/url` and `regexp`, the `providers` package, `os.Open`,
`hmacauth`) enter as explicit oracle parameters or as definitions
marked `Modelled from the spec:`.
-/

namespace OAuth2Proxy

/-- UTF-8 encoding of one character, as Go produces it for a `rune`. -/
def utf8Bytes (c : Char) : List UInt8 :=
  let n := c.toNat
  if n < 128 then [UInt8.ofNat n]
  else if n < 2048 then
    [UInt8.ofNat (192 + n / 64), UInt8.ofNat (128 + n % 64)]
  else if n < 65536 then
    [UInt8.ofNat (224 + n / 4096), UInt8.ofNat (128 + (n / 64) % 64),
     UInt8.ofNat (128 + n % 64)]
  else
    [UInt8.ofNat (240 + n / 262144), UInt8.ofNat (128 + (n / 4096) % 64),
     UInt8.ofNat (128 + (n / 64) % 64), UInt8.ofNat (128 + n % 64)]

/-- Go's `[]byte(s)`: the UTF-8 bytes of a string. -/
def goBytes (s : String) : List UInt8 :=
  s.data.flatMap utf8Bytes

/-- Go's `len(s)` on a string: its byte length. -/
def goLen (s : String) : Nat :=
  (goBytes s).length

/-- Value of one character of the base64url alphabet
(`A..Z a..z 0..9 - _`), as in Go's `base64.URLEncoding` decode map. -/
def b64Val (c : UInt8) : Option Nat :=
  let n := c.toNat
  if 65 ≤ n ∧ n ≤ 90 then some (n - 65)
  else if 97 ≤ n ∧ n ≤ 122 then some (n - 97 + 26)
  else if 48 ≤ n ∧ n ≤ 57 then some (n - 48 + 52)
  else if n = 45 then some 62
  else if n = 95 then some 63
  else none

/-- One quantum at a time, after newline filtering: Go's
`base64.Encoding.Decode` with padding character `=` (byte 61), in the
default non-strict mode (leftover bits of a partial final quantum are
ignored).  Padding may appear only as `xy==` or `xyz=` in the final
quantum; anything else is a `CorruptInputError`, modelled as `none`. -/
def b64DecodeGroups : List UInt8 → Option (List UInt8)
  | [] => some []
  | a :: b :: c :: d :: rest =>
    match b64Val a, b64Val b with
    | some va, some vb =>
      if c = (61 : UInt8) then
        if d = (61 : UInt8) ∧ rest = [] then
          some [UInt8.ofNat (va * 4 + vb / 16)]
        else none
      else
        match b64Val c with
        | some vc =>
          if d = (61 : UInt8) then
            if rest = [] then
              some [UInt8.ofNat (va * 4 + vb / 16),
                    UInt8.ofNat ((vb % 16) * 16 + vc / 4)]
            else none
          else
            match b64Val d with
            | some vd =>
              match b64DecodeGroups rest with
              | some tl =>
                some (UInt8.ofNat (va * 4 + vb / 16) ::
                      UInt8.ofNat ((vb % 16) * 16 + vc / 4) ::
                      UInt8.ofNat ((vc % 4) * 64 + vd) :: tl)
              | none => none
            | none => none
        | none => none
    | _, _ => none
  | _ => none

/-- Go's `base64.URLEncoding.DecodeString` on the bytes of the input:
carriage returns and newlines are ignored wherever they occur, then the
input is consumed in quanta of four characters. -/
def base64URLDecode (input : List UInt8) : Option (List UInt8) :=
  b64DecodeGroups (input.filter fun c => c ≠ (13 : UInt8) ∧ c ≠ (10 : UInt8))

/-- Function `addPadding` from `options.go`: restore trimmed `=` padding,
switching on the byte length of the secret modulo 4. -/
def addPadding (secret : String) : String :=
  match goLen secret % 4 with
  | 2 => secret ++ "=="
  | 3 => secret ++ "="
  | _ => secret

/-- Function `secretBytes` from `options.go`: attempt to base64-decode the
padded secret; keep the decoded bytes only when decoding succeeded and
gave 16, 24 or 32 bytes, otherwise treat the secret as binary. -/
def secretBytes (secret : String) : List UInt8 :=
  match base64URLDecode (goBytes (addPadding secret)) with
  | some b =>
    if b.length = 16 ∨ b.length = 24 ∨ b.length = 32 then b
    else goBytes secret
  | none => goBytes secret

/-- A parsed URL, holding the components this core inspects
(Go `net/url.URL`, restricted to scheme, host and path). -/
structure GoURL where
  scheme : String
  host : String
  path : String
deriving DecidableEq, Repr

/-- The `crypto.Hash` values reachable through the digest-name map. -/
inductive CryptoHash
  | md4 | md5 | sha1 | sha224 | sha256 | sha384 | sha512
deriving DecidableEq, Repr

/-- Structure `SignatureData` from `options.go`: resolved hash algorithm and key. -/
structure SignatureData where
  hash : CryptoHash
  key : String
deriving DecidableEq, Repr

/-- The provider variants of the external `providers` package. -/
inductive ProviderVariant
  | azure | bitbucket | github | gitlab | google | oidc | generic
deriving DecidableEq, Repr

/-- Observable state of the provider descriptor after
`parseProviderInfo`: which variant was selected and which external
configuration calls were made on it. -/
structure ProviderState where
  variant : ProviderVariant
  verifierSet : Bool := false
  issuerSet : Bool := false
  groupRestrictionSet : Bool := false
  openAttempted : Bool := false
deriving DecidableEq, Repr

/-- One validation message.  Each constructor corresponds to one
`append(msgs, ...)` site in `options.go` and carries the values the Go
code formats into the message text. -/
inductive Msg
  | insecureTransportType
  | missingCookieSecret
  | missingClientID
  | missingClientSecret
  | missingEmailValidation
  | urlParseError (urltype : String) (toParse : String) (err : String)
  | upstreamParseError (err : String)
  | regexCompileError (pattern : String) (err : String)
  | missingGoogleGroup
  | missingGoogleAdminEmail
  | missingGoogleServiceAccountJSON
  | invalidGoogleCredentialsFile (path : String)
  | missingOIDCIssuerURL
  | missingLoginURL
  | missingRedeemURL
  | missingOIDCJwksURL
  | oidcDiscoveryError (err : String)
  | cookieSecretWrongSize (length : Nat) (decodedFrom : Option String)
  | cookieRefreshGeExpire (refresh expire : Int)
  | invalidSameSite (value : String)
  | invalidSignatureSpec (key : String)
  | unsupportedSignatureHash (key : String)
  | invalidCookieName (name : String)
  | unsupportedRealClientIPHeader (value : String)
deriving DecidableEq, Repr

/-- The external collaborators `options.go` calls but whose code is not
part of the two source files: Go's URL parser and regexp compiler, the
runtime type of `http.DefaultTransport`, `os.Open` success, and OIDC
issuer discovery (`SetIssuerURL`).  `Except.error` carries the error
text the Go side would format into a message. -/
structure Ext where
  defaultTransportOK : Bool
  urlParse : String → Except String GoURL
  regexpCompile : String → Except String String
  osOpen : String → Bool
  setIssuerURL : String → Except String Unit

/-- The fields of `Options` (from `options.go`) that `Validate`,
`parseProviderInfo` and `parseSignatureKey` read.  Field defaults are
the Go zero values; `NewOptions` below applies the constructor's
explicit defaults. -/
structure Options where
  SSLInsecureSkipVerify : Bool := false
  CookieSecret : String := ""
  ClientID : String := ""
  ClientSecret : String := ""
  AuthenticatedEmailsFile : String := ""
  EmailDomains : List String := []
  HtpasswdFile : String := ""
  RedirectURL : String := ""
  Upstreams : List String := []
  SkipAuthRegex : List String := []
  PassAccessToken : Bool := false
  CookieRefresh : Int := 0
  CookieExpire : Int := 0
  CookieSameSite : String := ""
  CookieName : String := ""
  RealClientIPHeader : String := ""
  Provider : String := ""
  Scope : String := ""
  Prompt : String := ""
  ApprovalPrompt : String := ""
  LoginURL : String := ""
  RedeemURL : String := ""
  ProfileURL : String := ""
  ValidateURL : String := ""
  ProtectedResource : String := ""
  AzureTenant : String := ""
  BitbucketTeam : String := ""
  GitHubOrg : String := ""
  GitHubTeams : List String := []
  GitLabGroups : List String := []
  GoogleGroups : List String := []
  GoogleAdminEmail : String := ""
  GoogleServiceAccountJSON : String := ""
  OIDCIssuerURL : String := ""
  OIDCJwksURL : String := ""
  SkipOIDCDiscovery : Bool := false
  SignatureKey : String := ""
deriving DecidableEq, Repr

/-- Function `NewOptions` from `options.go`, restricted to the embedded fields;
durations are int64 nanoseconds, so 168 hours is `168 * 3600e9`. -/
def NewOptions : Options :=
  { CookieName := "_oauth2_proxy"
    CookieExpire := 168 * 3600000000000
    CookieRefresh := 0
    PassAccessToken := false
    Prompt := ""
    ApprovalPrompt := "force"
    RealClientIPHeader := "X-Real-IP" }

/-- Splitting a character list on every occurrence of one character;
the result always has one more part than there are separators. -/
def splitOnChar (sep : Char) : List Char → List (List Char)
  | [] => [[]]
  | c :: rest =>
    if c = sep then [] :: splitOnChar sep rest
    else
      match splitOnChar sep rest with
      | hd :: tl => (c :: hd) :: tl
      | [] => [[c]]

/-- Go's `strings.Split` with the one-character separator the source
uses: `Split("", ":")` is `[""]`, and every colon starts a new part. -/
def goSplit (s : String) (sep : Char) : List String :=
  (splitOnChar sep s.data).map String.mk

/-- Modelled from the spec: the fixed, known set of supported digest
algorithm names of the external `hmacauth.DigestNameToCryptoHash`
mapping (the `hmacauth` package is not among the source files). -/
def digestNameToCryptoHash (name : String) : Option CryptoHash :=
  if name = "md4" then some CryptoHash.md4
  else if name = "md5" then some CryptoHash.md5
  else if name = "sha1" then some CryptoHash.sha1
  else if name = "sha224" then some CryptoHash.sha224
  else if name = "sha256" then some CryptoHash.sha256
  else if name = "sha384" then some CryptoHash.sha384
  else if name = "sha512" then some CryptoHash.sha512
  else none

/-- Modelled from the spec: `providers.New` of the external `providers`
package selects the descriptor variant from the provider name, with
unrecognised names falling back to the generic/default descriptor. -/
def providersNew (name : String) : ProviderVariant :=
  if name = "azure" then ProviderVariant.azure
  else if name = "bitbucket" then ProviderVariant.bitbucket
  else if name = "github" then ProviderVariant.github
  else if name = "gitlab" then ProviderVariant.gitlab
  else if name = "google" then ProviderVariant.google
  else if name = "oidc" then ProviderVariant.oidc
  else ProviderVariant.generic

/-- Function `parseURL` from `options.go`: parse, or append one formatted
message and leave the field `nil`. -/
def parseURL (ext : Ext) (toParse urltype : String) (msgs : List Msg) :
    Option GoURL × List Msg :=
  match ext.urlParse toParse with
  | Except.error e => (none, msgs ++ [Msg.urlParseError urltype toParse e])
  | Except.ok u => (some u, msgs)

/-- The upstream loop of `Validate`: each entry is parsed; a parse
failure appends one message, a success normalises an empty path to
`/` and appends the URL to `proxyURLs`, in input order. -/
def processUpstreams (ext : Ext) : List String → List GoURL × List Msg
  | [] => ([], [])
  | u :: rest =>
    let tl := processUpstreams ext rest
    match ext.urlParse u with
    | Except.error e => (tl.1, Msg.upstreamParseError e :: tl.2)
    | Except.ok uu =>
      ((if uu.path = "" then { uu with path := "/" } else uu) :: tl.1, tl.2)

/-- The bypass-regex loop of `Validate`: failures append one message
and are skipped, successes accumulate in input order. -/
def processRegex (ext : Ext) : List String → List String × List Msg
  | [] => ([], [])
  | p :: rest =>
    let tl := processRegex ext rest
    match ext.regexpCompile p with
    | Except.error e => (tl.1, Msg.regexCompileError p e :: tl.2)
    | Except.ok r => (r :: tl.1, tl.2)

/-- The `GoogleProvider` case of `parseProviderInfo`'s switch: if any
of group list, admin email or credentials path is set, each missing one
gets its own message; a non-empty credentials path is opened, an open
failure is one message, an open success hands the file to the
descriptor's group restriction. -/
def googleBlock (ext : Ext) (o : Options) (msgs : List Msg) :
    ProviderState × List Msg :=
  let msgs :=
    if 0 < o.GoogleGroups.length ∨ o.GoogleAdminEmail ≠ "" ∨
        o.GoogleServiceAccountJSON ≠ "" then
      let msgs := if o.GoogleGroups.length < 1 then
          msgs ++ [Msg.missingGoogleGroup] else msgs
      let msgs := if o.GoogleAdminEmail = "" then
          msgs ++ [Msg.missingGoogleAdminEmail] else msgs
      if o.GoogleServiceAccountJSON = "" then
        msgs ++ [Msg.missingGoogleServiceAccountJSON] else msgs
    else msgs
  if o.GoogleServiceAccountJSON ≠ "" then
    if ext.osOpen o.GoogleServiceAccountJSON then
      ({ variant := ProviderVariant.google, openAttempted := true,
         groupRestrictionSet := true }, msgs)
    else
      ({ variant := ProviderVariant.google, openAttempted := true },
       msgs ++ [Msg.invalidGoogleCredentialsFile o.GoogleServiceAccountJSON])
  else
    ({ variant := ProviderVariant.google }, msgs)

/-- The `OIDCProvider` case of `parseProviderInfo`'s switch: an empty
issuer URL is always reported; with discovery skipped, empty login,
redeem and JWKS URLs are each reported and a verifier is set when
issuer and JWKS are both present; without skipping, a present issuer
triggers discovery whose failure is one message. -/
def oidcBlock (ext : Ext) (o : Options) (msgs : List Msg) :
    ProviderState × List Msg :=
  let msgs := if o.OIDCIssuerURL = "" then
      msgs ++ [Msg.missingOIDCIssuerURL] else msgs
  if o.SkipOIDCDiscovery then
    let msgs := if o.LoginURL = "" then
        msgs ++ [Msg.missingLoginURL] else msgs
    let msgs := if o.RedeemURL = "" then
        msgs ++ [Msg.missingRedeemURL] else msgs
    let msgs := if o.OIDCJwksURL = "" then
        msgs ++ [Msg.missingOIDCJwksURL] else msgs
    if o.OIDCIssuerURL ≠ "" ∧ o.OIDCJwksURL ≠ "" then
      ({ variant := ProviderVariant.oidc, verifierSet := true }, msgs)
    else
      ({ variant := ProviderVariant.oidc }, msgs)
  else
    if o.OIDCIssuerURL ≠ "" then
      match ext.setIssuerURL o.OIDCIssuerURL with
      | Except.error e =>
        ({ variant := ProviderVariant.oidc },
         msgs ++ [Msg.oidcDiscoveryError e])
      | Except.ok _ =>
        ({ variant := ProviderVariant.oidc, issuerSet := true }, msgs)
    else
      ({ variant := ProviderVariant.oidc }, msgs)

/-- Function `parseProviderInfo` from `options.go`.  The five endpoint URLs are
parsed first (each failure appending its own message); then the variant
selected by the provider name is configured.  Azure, Bitbucket, GitHub
and GitLab apply their settings unconditionally and add no messages. -/
def parseProviderInfo (ext : Ext) (o : Options) (msgs : List Msg) :
    ProviderState × List Msg :=
  let msgs := (parseURL ext o.LoginURL "login" msgs).2
  let msgs := (parseURL ext o.RedeemURL "redeem" msgs).2
  let msgs := (parseURL ext o.ProfileURL "profile" msgs).2
  let msgs := (parseURL ext o.ValidateURL "validate" msgs).2
  let msgs := (parseURL ext o.ProtectedResource "resource" msgs).2
  match providersNew o.Provider with
  | ProviderVariant.google => googleBlock ext o msgs
  | ProviderVariant.oidc => oidcBlock ext o msgs
  | v => ({ variant := v }, msgs)

/-- Function `parseSignatureKey` from `options.go`: empty key is a no-op; the
key is split on every colon (`strings.Split`); a part count other than
two is an invalid-spec message; an unmapped algorithm name is an
unsupported-hash message; otherwise the resolved pair is stored. -/
def parseSignatureKey (o : Options) (msgs : List Msg) :
    Option SignatureData × List Msg :=
  if o.SignatureKey = "" then (none, msgs)
  else
    match goSplit o.SignatureKey ':' with
    | [algorithm, secretKey] =>
      match digestNameToCryptoHash algorithm with
      | some h => (some { hash := h, key := secretKey }, msgs)
      | none => (none, msgs ++ [Msg.unsupportedSignatureHash o.SignatureKey])
    | _ => (none, msgs ++ [Msg.invalidSignatureSpec o.SignatureKey])

/-- Token characters of Go's `httpguts.IsTokenRune` (RFC 7230 `tchar`):
digits, letters, and `! # $ % & apostrophe * + - . ^ _ backquote | ~`. -/
def isTokenChar (c : Char) : Bool :=
  let n := c.toNat
  decide ((48 ≤ n ∧ n ≤ 57) ∨ (65 ≤ n ∧ n ≤ 90) ∨ (97 ≤ n ∧ n ≤ 122) ∨
    n = 33 ∨ n = 35 ∨ n = 36 ∨ n = 37 ∨ n = 38 ∨ n = 39 ∨ n = 42 ∨
    n = 43 ∨ n = 45 ∨ n = 46 ∨ n = 94 ∨ n = 95 ∨ n = 96 ∨ n = 124 ∨
    n = 126)

/-- Serialisation of `http.Cookie{Name: name}` as far as `Validate`
inspects it: Go's `Cookie.String` returns the empty string exactly when
the name is empty or contains a non-token character, and otherwise
starts with `name=`. -/
def cookieString (name : String) : String :=
  if name ≠ "" ∧ name.data.all isTokenChar then name ++ "=" else ""

/-- Function `validateCookieName` from `options.go`. -/
def validateCookieName (o : Options) (msgs : List Msg) : List Msg :=
  if cookieString o.CookieName = "" then
    msgs ++ [Msg.invalidCookieName o.CookieName]
  else msgs

/-- Contribution of the insecure-TLS step of `Validate`. -/
def sslCheck (ext : Ext) (o : Options) : List Msg :=
  if o.SSLInsecureSkipVerify then
    if ext.defaultTransportOK then [] else [Msg.insecureTransportType]
  else []

/-- Contribution of the missing-cookie-secret check of `Validate`. -/
def cookieSecretMissingCheck (o : Options) : List Msg :=
  if o.CookieSecret = "" then [Msg.missingCookieSecret] else []

/-- Contribution of the missing-client-id check of `Validate`. -/
def clientIDCheck (o : Options) : List Msg :=
  if o.ClientID = "" then [Msg.missingClientID] else []

/-- Contribution of the missing-client-secret check of `Validate`. -/
def clientSecretCheck (o : Options) : List Msg :=
  if o.ClientSecret = "" then [Msg.missingClientSecret] else []

/-- Contribution of the email-validation-settings check of `Validate`. -/
def emailValidationCheck (o : Options) : List Msg :=
  if o.AuthenticatedEmailsFile = "" ∧ o.EmailDomains.length = 0 ∧
      o.HtpasswdFile = "" then
    [Msg.missingEmailValidation]
  else []

/-- Contribution of the cookie-secret size check of `Validate`: it runs
only when access tokens are passed through or cookie refresh is
non-zero, and mirrors the loop over the lengths 16, 24, 32, the
`decoded` comparison and the conditional note suffix. -/
def cookieSecretSizeCheck (o : Options) : List Msg :=
  if o.PassAccessToken = true ∨ o.CookieRefresh ≠ 0 then
    if (secretBytes o.CookieSecret).length = 16 ∨
        (secretBytes o.CookieSecret).length = 24 ∨
        (secretBytes o.CookieSecret).length = 32 then []
    else
      [Msg.cookieSecretWrongSize (secretBytes o.CookieSecret).length
        (if secretBytes o.CookieSecret ≠ goBytes o.CookieSecret then
          some o.CookieSecret else none)]
  else []

/-- Contribution of the refresh-vs-expiry check of `Validate`. -/
def refreshExpireCheck (o : Options) : List Msg :=
  if o.CookieRefresh ≥ o.CookieExpire then
    [Msg.cookieRefreshGeExpire o.CookieRefresh o.CookieExpire]
  else []

/-- Contribution of the same-site check of `Validate` (the Go
`switch`). -/
def sameSiteCheck (o : Options) : List Msg :=
  if o.CookieSameSite = "" ∨ o.CookieSameSite = "none" ∨
      o.CookieSameSite = "lax" ∨ o.CookieSameSite = "strict" then []
  else [Msg.invalidSameSite o.CookieSameSite]

/-- Contribution of the real-client-IP header check of `Validate`. -/
def realClientIPCheck (o : Options) : List Msg :=
  if o.RealClientIPHeader ≠ "" then
    if o.RealClientIPHeader = "X-Real-IP" ∨
        o.RealClientIPHeader = "X-Forwarded-For" ∨
        o.RealClientIPHeader = "X-ProxyUser-IP" then []
    else [Msg.unsupportedRealClientIPHeader o.RealClientIPHeader]
  else []

/-- The result of one `Validate` run: the collected messages and the
internal fields it populates. -/
structure ValidateResult where
  msgs : List Msg
  redirectURL : Option GoURL
  proxyURLs : List GoURL
  compiledRegex : List String
  provider : ProviderState
  signatureData : Option SignatureData
deriving Repr

/-- Function `Validate` of `Options` from `options.go`: the checks run in source
order, each appending its messages to the shared accumulator; no check
is skipped because an earlier one failed. -/
def Validate (ext : Ext) (o : Options) : ValidateResult :=
  let msgs : List Msg := []
  let msgs := msgs ++ sslCheck ext o
  let msgs := msgs ++ cookieSecretMissingCheck o
  let msgs := msgs ++ clientIDCheck o
  let msgs := msgs ++ clientSecretCheck o
  let msgs := msgs ++ emailValidationCheck o
  let rRedirect := parseURL ext o.RedirectURL "redirect" msgs
  let msgs := rRedirect.2
  let rUp := processUpstreams ext o.Upstreams
  let msgs := msgs ++ rUp.2
  let rRe := processRegex ext o.SkipAuthRegex
  let msgs := msgs ++ rRe.2
  let rProv := parseProviderInfo ext o msgs
  let msgs := rProv.2
  let msgs := msgs ++ cookieSecretSizeCheck o
  let msgs := msgs ++ refreshExpireCheck o
  let msgs := msgs ++ sameSiteCheck o
  let rSig := parseSignatureKey o msgs
  let msgs := rSig.2
  let msgs := validateCookieName o msgs
  let msgs := msgs ++ realClientIPCheck o
  { msgs := msgs
    redirectURL := rRedirect.1
    proxyURLs := rUp.1
    compiledRegex := rRe.1
    provider := rProv.1
    signatureData := rSig.1 }

/-- The aggregated error text of `Validate`:
`fmt.Errorf("Invalid configuration:\n  %s", strings.Join(msgs, "\n  "))`,
with `render` producing each message's text. -/
def aggregateError (render : Msg → String) (msgs : List Msg) : String :=
  "Invalid configuration:\x0a  " ++
    String.intercalate "\x0a  " (msgs.map render)

/-- The error returned by `Validate`: `nil` exactly when no message was
collected. -/
def ValidateError (render : Msg → String) (ext : Ext) (o : Options) :
    Option String :=
  if (Validate ext o).msgs = [] then none
  else some (aggregateError render (Validate ext o).msgs)

/-- Splitting off a `scheme://` head for the model URL parser. -/
def splitSchemeAux : List Char → Option (List Char × List Char)
  | ':' :: '/' :: '/' :: rest => some ([], rest)
  | c :: rest =>
    (splitSchemeAux rest).map fun p => (c :: p.1, p.2)
  | [] => none

/-- Modelled from the spec: Go's `net/url.Parse` is an external
collaborator, not among the source files.  The spec fixes only the
behaviour its scenarios use: `http://a:8080` parses with host `a:8080`
and an empty path, the empty string parses, and `not a url` fails to
parse.  The model accepts `scheme://host/path`-shaped strings and
scheme-less relative strings, and rejects strings containing spaces. -/
def urlParseModel (s : String) : Except String GoURL :=
  if s.data.contains ' ' then
    Except.error ("parse " ++ s ++ ": invalid URL")
  else
    match splitSchemeAux s.data with
    | none => Except.ok { scheme := "", host := "", path := s }
    | some (sch, rest) =>
      Except.ok
        { scheme := String.mk sch
          host := String.mk (rest.takeWhile fun c => c ≠ '/')
          path := String.mk (rest.dropWhile fun c => c ≠ '/') }

/-- Modelled from the spec: a concrete oracle for the external
collaborators, used by the scenario claims.  `http.DefaultTransport`
has its usual type, every regex pattern compiles, files exist, and
issuer discovery succeeds. -/
def extModel : Ext :=
  { defaultTransportOK := true
    urlParse := urlParseModel
    regexpCompile := fun p => Except.ok p
    osOpen := fun _ => true
    setIssuerURL := fun _ => Except.ok () }

/-- Appending bytes distributes over `goBytes`. -/
lemma goBytes_append (s t : String) :
    goBytes (s ++ t) = goBytes s ++ goBytes t := by
  simp [goBytes, String.data_append]

/-- Byte length of an appended string. -/
lemma goLen_append (s t : String) : goLen (s ++ t) = goLen s + goLen t := by
  simp [goLen, goBytes_append]

/-- When the secret-size test fails, `secretBytes` necessarily took the
fallback branch, so it returned the raw bytes of the secret. -/
lemma secretBytes_eq_raw_of_invalid (s : String)
    (h : ¬((secretBytes s).length = 16 ∨ (secretBytes s).length = 24 ∨
      (secretBytes s).length = 32)) :
    secretBytes s = goBytes s := by
  unfold secretBytes at h ⊢
  cases hd : base64URLDecode (goBytes (addPadding s)) with
  | none => simp [hd]
  | some b =>
    simp only [hd] at h ⊢
    by_cases hb : b.length = 16 ∨ b.length = 24 ∨ b.length = 32
    · rw [if_pos hb] at h; exact absurd hb h
    · rw [if_neg hb]

/-- The secret-size test on `secretBytes` succeeds exactly when the raw
secret already has a valid length or its padded base64 decodes to one. -/
lemma secretBytes_len_iff (s : String) :
    ((secretBytes s).length = 16 ∨ (secretBytes s).length = 24 ∨
      (secretBytes s).length = 32) ↔
    (((goBytes s).length = 16 ∨ (goBytes s).length = 24 ∨
       (goBytes s).length = 32) ∨
     (∃ b, base64URLDecode (goBytes (addPadding s)) = some b ∧
       (b.length = 16 ∨ b.length = 24 ∨ b.length = 32))) := by
  unfold secretBytes
  cases hd : base64URLDecode (goBytes (addPadding s)) with
  | none => simp [hd]
  | some b =>
    simp only [hd]
    by_cases hb : b.length = 16 ∨ b.length = 24 ∨ b.length = 32
    · simp [hb]
    · simp [hb]

example : goLen "a" = 1 := by decide
example : addPadding "a" = "a" := by decide
example : addPadding "ab" = "ab==" := by decide
example : base64URLDecode (goBytes "AAAA") = some [0, 0, 0] := by decide
example : (secretBytes "AAAAAAAAAAAAAAAAAAAAAA").length = 16 := by decide
example : secretBytes "0123456789abcdef" = goBytes "0123456789abcdef" := by
  decide

/-- Claim C1, counterexample: `parseSignatureKey` splits the key on
every colon, not on the first one, so `sha1:a:b` has three parts and is
rejected as an invalid hash:key spec instead of resolving with secret
`a:b`. -/
theorem C1_counterexample :
    goSplit "sha1:a:b" ':' = ["sha1", "a", "b"] ∧
    parseSignatureKey { NewOptions with SignatureKey := "sha1:a:b" } [] =
      (none, [Msg.invalidSignatureSpec "sha1:a:b"]) := by
  exact ⟨by decide, by decide⟩

/-- Claim C1 (amended): a non-empty signature key is split on every
colon; only a part count of exactly two is accepted, so a key whose
secret part itself contains a colon is also reported as an invalid
hash:key spec; with exactly one colon, a supported digest name resolves
to that algorithm with the part after the colon as the secret, and an
unmapped name is reported as unsupported. -/
theorem C1_amended (o : Options) (msgs : List Msg)
    (h : o.SignatureKey ≠ "") :
    ((goSplit o.SignatureKey ':').length ≠ 2 →
      parseSignatureKey o msgs =
        (none, msgs ++ [Msg.invalidSignatureSpec o.SignatureKey])) ∧
    (∀ a k, goSplit o.SignatureKey ':' = [a, k] →
      (∀ hsh, digestNameToCryptoHash a = some hsh →
        parseSignatureKey o msgs = (some { hash := hsh, key := k }, msgs)) ∧
      (digestNameToCryptoHash a = none →
        parseSignatureKey o msgs =
          (none, msgs ++ [Msg.unsupportedSignatureHash o.SignatureKey]))) := by
  constructor
  · intro hlen
    cases hs : goSplit o.SignatureKey ':' with
    | nil => simp [parseSignatureKey, h, hs]
    | cons a t =>
      cases t with
      | nil => simp [parseSignatureKey, h, hs]
      | cons b t2 =>
        cases t2 with
        | nil => exact absurd (by simp [hs]) hlen
        | cons c t3 => simp [parseSignatureKey, h, hs]
  · intro a k hs
    constructor
    · intro hsh hdig
      simp [parseSignatureKey, h, hs, hdig]
    · intro hdig
      simp [parseSignatureKey, h, hs, hdig]

/-- Claim C1, witness: `sha256:secret` resolves to the SHA-256
algorithm with secret `secret`. -/
theorem C1_witness :
    parseSignatureKey { NewOptions with SignatureKey := "sha256:secret" } [] =
      (some { hash := CryptoHash.sha256, key := "secret" }, []) := by
  exact ((C1_amended { NewOptions with SignatureKey := "sha256:secret" } []
    (by decide)).2 "sha256" "secret" (by decide)).1 CryptoHash.sha256 (by decide)

/-- Claim C3, counterexample: a secret of byte length 1 modulo 4 is
left unpadded, so its length does not become a multiple of 4. -/
theorem C3_counterexample :
    addPadding "a" = "a" ∧ goLen (addPadding "a") % 4 = 1 := by
  exact ⟨by decide, by decide⟩

/-- Claim C3 (amended): padding is appended only when the secret's byte
length is 2 or 3 modulo 4 (two or one `=` characters, reaching a
multiple of 4); a length of 0 or 1 modulo 4 is left unchanged, so a
length of 1 modulo 4 never reaches a multiple of 4; the codec then
base64-decodes the padded string and returns the decoded bytes exactly
when decoding succeeds with decoded length 16, 24 or 32, and in every
other case returns the original string's raw bytes unmodified. -/
theorem C3_amended (s : String) :
    (goLen s % 4 = 2 → addPadding s = s ++ "==") ∧
    (goLen s % 4 = 3 → addPadding s = s ++ "=") ∧
    (goLen s % 4 = 0 ∨ goLen s % 4 = 1 → addPadding s = s) ∧
    (goLen s % 4 ≠ 1 → goLen (addPadding s) % 4 = 0) ∧
    (∀ b, base64URLDecode (goBytes (addPadding s)) = some b →
      ((b.length = 16 ∨ b.length = 24 ∨ b.length = 32) → secretBytes s = b) ∧
      (¬(b.length = 16 ∨ b.length = 24 ∨ b.length = 32) →
        secretBytes s = goBytes s)) ∧
    (base64URLDecode (goBytes (addPadding s)) = none →
      secretBytes s = goBytes s) := by
  have hpad2 : goLen s % 4 = 2 → addPadding s = s ++ "==" := by
    intro h; simp [addPadding, h]
  have hpad3 : goLen s % 4 = 3 → addPadding s = s ++ "=" := by
    intro h; simp [addPadding, h]
  have hpad0 : goLen s % 4 = 0 → addPadding s = s := by
    intro h; simp [addPadding, h]
  have hpad1 : goLen s % 4 = 1 → addPadding s = s := by
    intro h; simp [addPadding, h]
  refine ⟨hpad2, hpad3, ?_, ?_, ?_, ?_⟩
  · rintro (h | h)
    · exact hpad0 h
    · exact hpad1 h
  · intro h
    have hlt : goLen s % 4 < 4 := Nat.mod_lt _ (by norm_num)
    have : goLen s % 4 = 0 ∨ goLen s % 4 = 2 ∨ goLen s % 4 = 3 := by omega
    rcases this with h0 | h2 | h3
    · rw [hpad0 h0]; exact h0
    · rw [hpad2 h2, goLen_append]
      have : goLen "==" = 2 := by decide
      omega
    · rw [hpad3 h3, goLen_append]
      have : goLen "=" = 1 := by decide
      omega
  · intro b hb
    constructor
    · intro hlen
      simp only [secretBytes, hb]
      rw [if_pos hlen]
    · intro hlen
      simp only [secretBytes, hb]
      rw [if_neg hlen]
  · intro hb
    simp only [secretBytes, hb]

/-- Claim C3, witness: a 22-character base64 string is padded with two
`=` and decodes to 16 bytes, which the codec returns. -/
theorem C3_witness :
    addPadding "AAAAAAAAAAAAAAAAAAAAAA" = "AAAAAAAAAAAAAAAAAAAAAA" ++ "==" ∧
    secretBytes "AAAAAAAAAAAAAAAAAAAAAA" = List.replicate 16 (0 : UInt8) := by
  refine ⟨(C3_amended "AAAAAAAAAAAAAAAAAAAAAA").1 (by decide), ?_⟩
  exact ((C3_amended "AAAAAAAAAAAAAAAAAAAAAA").2.2.2.2.1
    (List.replicate 16 (0 : UInt8)) (by decide)).1 (by decide)

/-- Claim C4: the cookie-secret size check runs exactly when access
tokens are passed through or cookie refresh is non-zero; it passes
exactly when the raw secret has byte length 16, 24 or 32 or its padded
base64 decoding succeeds with one of those lengths; otherwise it
appends exactly one message reporting the decoded byte length. -/
theorem C4_theorem (o : Options) :
    (¬(o.PassAccessToken = true ∨ o.CookieRefresh ≠ 0) →
      cookieSecretSizeCheck o = []) ∧
    ((o.PassAccessToken = true ∨ o.CookieRefresh ≠ 0) →
      (cookieSecretSizeCheck o = [] ↔
        ((goBytes o.CookieSecret).length = 16 ∨
         (goBytes o.CookieSecret).length = 24 ∨
         (goBytes o.CookieSecret).length = 32) ∨
        (∃ b, base64URLDecode (goBytes (addPadding o.CookieSecret)) = some b ∧
          (b.length = 16 ∨ b.length = 24 ∨ b.length = 32))) ∧
      (cookieSecretSizeCheck o ≠ [] →
        ∃ note, cookieSecretSizeCheck o =
          [Msg.cookieSecretWrongSize (secretBytes o.CookieSecret).length
            note])) := by
  constructor
  · intro h
    simp only [cookieSecretSizeCheck, if_neg h]
  · intro h
    by_cases hv : (secretBytes o.CookieSecret).length = 16 ∨
        (secretBytes o.CookieSecret).length = 24 ∨
        (secretBytes o.CookieSecret).length = 32
    · have hr := (secretBytes_len_iff o.CookieSecret).mp hv
      have hc : cookieSecretSizeCheck o = [] := by
        simp only [cookieSecretSizeCheck, if_pos h, if_pos hv]
      exact ⟨by rw [hc]; exact iff_of_true rfl hr, fun hne => absurd hc hne⟩
    · have hr : ¬(((goBytes o.CookieSecret).length = 16 ∨
          (goBytes o.CookieSecret).length = 24 ∨
          (goBytes o.CookieSecret).length = 32) ∨
          (∃ b, base64URLDecode (goBytes (addPadding o.CookieSecret)) =
            some b ∧ (b.length = 16 ∨ b.length = 24 ∨ b.length = 32))) :=
        fun hc => hv ((secretBytes_len_iff o.CookieSecret).mpr hc)
      have hc : cookieSecretSizeCheck o =
          [Msg.cookieSecretWrongSize (secretBytes o.CookieSecret).length
            (if secretBytes o.CookieSecret ≠ goBytes o.CookieSecret then
              some o.CookieSecret else none)] := by
        simp only [cookieSecretSizeCheck, if_pos h, if_neg hv]
      constructor
      · rw [hc]
        exact iff_of_false (by simp) hr
      · intro _
        exact ⟨_, hc⟩

/-- Claim C4, witness: a raw 16-byte secret passes the size check when
access-token pass-through is on. -/
theorem C4_witness :
    cookieSecretSizeCheck
      { NewOptions with
          PassAccessToken := true, CookieSecret := "0123456789abcdef" } =
      [] := by
  exact ((C4_theorem { NewOptions with
      PassAccessToken := true, CookieSecret := "0123456789abcdef" }).2
    (Or.inl (by decide))).1.mpr (Or.inl (by decide))

/-- Claim C8: the refresh/expiry message, carrying both duration
values, is appended exactly when the cookie refresh interval is greater
than or equal to the cookie expiry interval; equal values fail and
strictly smaller refresh values pass. -/
theorem C8_theorem (o : Options) :
    (refreshExpireCheck o =
        [Msg.cookieRefreshGeExpire o.CookieRefresh o.CookieExpire] ↔
      o.CookieExpire ≤ o.CookieRefresh) ∧
    (refreshExpireCheck o = [] ↔ o.CookieRefresh < o.CookieExpire) ∧
    (o.CookieRefresh = o.CookieExpire → refreshExpireCheck o ≠ []) := by
  by_cases hge : o.CookieRefresh ≥ o.CookieExpire
  · refine ⟨iff_of_true ?_ hge, iff_of_false ?_ (by omega), ?_⟩
    · simp [refreshExpireCheck, if_pos hge]
    · simp [refreshExpireCheck, if_pos hge]
    · intro _; simp [refreshExpireCheck, if_pos hge]
  · refine ⟨iff_of_false ?_ (by omega), iff_of_true ?_ (by omega), ?_⟩
    · simp [refreshExpireCheck, if_neg hge]
    · simp [refreshExpireCheck, if_neg hge]
    · intro he; exact absurd (le_of_eq he.symm) hge

/-- Claim C8, witness: with refresh equal to expiry the check fails. -/
theorem C8_witness :
    refreshExpireCheck
      { NewOptions with CookieRefresh := 168 * 3600000000000 } ≠ [] := by
  exact (C8_theorem { NewOptions with
    CookieRefresh := 168 * 3600000000000 }).2.2 (by decide)

/-- Claim C9: the same-site check appends a message carrying the
offending value exactly when the setting is none of the empty string,
`none`, `lax` and `strict`. -/
theorem C9_theorem (o : Options) :
    (sameSiteCheck o = [] ↔
      (o.CookieSameSite = "" ∨ o.CookieSameSite = "none" ∨
       o.CookieSameSite = "lax" ∨ o.CookieSameSite = "strict")) ∧
    (¬(o.CookieSameSite = "" ∨ o.CookieSameSite = "none" ∨
       o.CookieSameSite = "lax" ∨ o.CookieSameSite = "strict") →
      sameSiteCheck o = [Msg.invalidSameSite o.CookieSameSite]) := by
  by_cases hs : o.CookieSameSite = "" ∨ o.CookieSameSite = "none" ∨
      o.CookieSameSite = "lax" ∨ o.CookieSameSite = "strict"
  · exact ⟨iff_of_true (by simp [sameSiteCheck, if_pos hs]) hs,
      fun hc => absurd hs hc⟩
  · refine ⟨iff_of_false ?_ hs, fun _ => ?_⟩
    · simp [sameSiteCheck, if_neg hs]
    · simp [sameSiteCheck, if_neg hs]

/-- Claim C9, witness: the value `Strict` (capitalised) is rejected. -/
theorem C9_witness :
    sameSiteCheck { NewOptions with CookieSameSite := "Strict" } =
      [Msg.invalidSameSite "Strict"] := by
  exact (C9_theorem { NewOptions with CookieSameSite := "Strict" }).2
    (by decide)

/-- Claim C10: every message the cookie-secret size check emits reports
the byte length of the original secret string and carries no
base64-decoded note, since a decode that succeeded with a valid length
would have made the check pass. -/
theorem C10_theorem (o : Options) (m : Msg)
    (hm : m ∈ cookieSecretSizeCheck o) :
    m = Msg.cookieSecretWrongSize (goBytes o.CookieSecret).length none := by
  unfold cookieSecretSizeCheck at hm
  by_cases hg : o.PassAccessToken = true ∨ o.CookieRefresh ≠ 0
  · rw [if_pos hg] at hm
    by_cases hv : (secretBytes o.CookieSecret).length = 16 ∨
        (secretBytes o.CookieSecret).length = 24 ∨
        (secretBytes o.CookieSecret).length = 32
    · rw [if_pos hv] at hm
      simp at hm
    · rw [if_neg hv] at hm
      have hraw := secretBytes_eq_raw_of_invalid o.CookieSecret hv
      simp only [List.mem_singleton] at hm
      rw [hm, hraw]
      simp
  · rw [if_neg hg] at hm
    simp at hm

/-- All five provider endpoint URLs parse successfully. -/
def provParsesOK (ext : Ext) (o : Options) : Prop :=
  (∃ u, ext.urlParse o.LoginURL = Except.ok u) ∧
  (∃ u, ext.urlParse o.RedeemURL = Except.ok u) ∧
  (∃ u, ext.urlParse o.ProfileURL = Except.ok u) ∧
  (∃ u, ext.urlParse o.ValidateURL = Except.ok u) ∧
  (∃ u, ext.urlParse o.ProtectedResource = Except.ok u)

/-- Under successful endpoint-URL parses, `parseProviderInfo` reduces
to the selected variant's block. -/
lemma parseProviderInfo_ok_eq (ext : Ext) (o : Options)
    (hOK : provParsesOK ext o) (msgs : List Msg) :
    parseProviderInfo ext o msgs =
      (match providersNew o.Provider with
       | ProviderVariant.google => googleBlock ext o msgs
       | ProviderVariant.oidc => oidcBlock ext o msgs
       | v => ({ variant := v }, msgs)) := by
  obtain ⟨⟨u1, h1⟩, ⟨u2, h2⟩, ⟨u3, h3⟩, ⟨u4, h4⟩, ⟨u5, h5⟩⟩ := hOK
  simp only [parseProviderInfo, parseURL, h1, h2, h3, h4, h5]

/-- Claim C2, counterexample: with the OIDC provider, discovery
skipped, and no issuer, login, redeem or JWKS URL, the provider check
contributes four messages, not three: the missing-issuer message is
produced even though discovery is skipped. -/
theorem C2_counterexample :
    (parseProviderInfo extModel
      { NewOptions with
          Provider := "oidc", SkipOIDCDiscovery := true } []).2 =
      [Msg.missingOIDCIssuerURL, Msg.missingLoginURL, Msg.missingRedeemURL,
        Msg.missingOIDCJwksURL] ∧
    (parseProviderInfo extModel
      { NewOptions with
          Provider := "oidc", SkipOIDCDiscovery := true } []).2.length ≠ 3 := by
  exact ⟨by decide, by decide⟩

/-- Claim C2 (amended): for the OIDC variant the missing-issuer message
is produced whenever the issuer URL is empty, regardless of whether
discovery is skipped; when discovery is skipped and the issuer is
present but login, redeem and JWKS URLs are all empty, the check
contributes exactly three missing-setting messages, one per field; and
a verifier is attached exactly when discovery is skipped and both
issuer and JWKS URLs are present. -/
theorem C2_amended (ext : Ext) (o : Options)
    (hv : providersNew o.Provider = ProviderVariant.oidc)
    (hOK : provParsesOK ext o) :
    (Msg.missingOIDCIssuerURL ∈ (parseProviderInfo ext o []).2 ↔
      o.OIDCIssuerURL = "") ∧
    (o.SkipOIDCDiscovery = true → o.OIDCIssuerURL ≠ "" → o.LoginURL = "" →
      o.RedeemURL = "" → o.OIDCJwksURL = "" →
      (parseProviderInfo ext o []).2 =
        [Msg.missingLoginURL, Msg.missingRedeemURL, Msg.missingOIDCJwksURL]) ∧
    ((parseProviderInfo ext o []).1.verifierSet = true ↔
      (o.SkipOIDCDiscovery = true ∧ o.OIDCIssuerURL ≠ "" ∧
        o.OIDCJwksURL ≠ "")) := by
  have hb : parseProviderInfo ext o [] = oidcBlock ext o [] := by
    rw [parseProviderInfo_ok_eq ext o hOK [], hv]
  rw [hb]
  refine ⟨?_, fun hskip hiss hlog hrd hjwks => by
    simp [oidcBlock, hskip, hiss, hlog, hrd, hjwks], ?_⟩ <;>
  · by_cases hiss : o.OIDCIssuerURL = "" <;>
      by_cases hskip : o.SkipOIDCDiscovery = true <;>
        by_cases hlog : o.LoginURL = "" <;>
          by_cases hrd : o.RedeemURL = "" <;>
            by_cases hjwks : o.OIDCJwksURL = "" <;>
              cases hsi : ext.setIssuerURL o.OIDCIssuerURL <;>
                simp [oidcBlock, hiss, hskip, hlog, hrd, hjwks, hsi]

/-- Claim C2, witness: discovery skipped with the issuer present and
login, redeem and JWKS URLs empty gives exactly the three
missing-setting messages. -/
theorem C2_witness :
    (parseProviderInfo extModel
      { NewOptions with
          Provider := "oidc", SkipOIDCDiscovery := true,
          OIDCIssuerURL := "https://issuer.example" } []).2 =
      [Msg.missingLoginURL, Msg.missingRedeemURL, Msg.missingOIDCJwksURL] := by
  exact (C2_amended extModel
    { NewOptions with
        Provider := "oidc", SkipOIDCDiscovery := true,
        OIDCIssuerURL := "https://issuer.example" }
    (by decide)
    ⟨⟨{ scheme := "", host := "", path := "" }, rfl⟩,
     ⟨{ scheme := "", host := "", path := "" }, rfl⟩,
     ⟨{ scheme := "", host := "", path := "" }, rfl⟩,
     ⟨{ scheme := "", host := "", path := "" }, rfl⟩,
     ⟨{ scheme := "", host := "", path := "" }, rfl⟩⟩).2.1
    rfl (by decide) rfl rfl rfl

/-- Claim C6: for the Google variant, if any of the group list, the
admin email or the credentials path is set, each missing one of the
three is reported with its own message; the credentials file is opened
exactly when the path is non-empty; and in the scenario with only the
group list set the check contributes exactly the two messages for the
missing admin email and credentials path, with no file opened. -/
theorem C6_theorem (ext : Ext) (o : Options)
    (hv : providersNew o.Provider = ProviderVariant.google)
    (hOK : provParsesOK ext o) :
    ((0 < o.GoogleGroups.length ∨ o.GoogleAdminEmail ≠ "" ∨
        o.GoogleServiceAccountJSON ≠ "") →
      ((Msg.missingGoogleGroup ∈ (parseProviderInfo ext o []).2 ↔
          o.GoogleGroups.length < 1) ∧
       (Msg.missingGoogleAdminEmail ∈ (parseProviderInfo ext o []).2 ↔
          o.GoogleAdminEmail = "") ∧
       (Msg.missingGoogleServiceAccountJSON ∈ (parseProviderInfo ext o []).2 ↔
          o.GoogleServiceAccountJSON = ""))) ∧
    ((parseProviderInfo ext o []).1.openAttempted = true ↔
      o.GoogleServiceAccountJSON ≠ "") ∧
    ((parseProviderInfo extModel
        { NewOptions with
            Provider := "google", GoogleGroups := ["grp"] } []).2 =
      [Msg.missingGoogleAdminEmail, Msg.missingGoogleServiceAccountJSON] ∧
     (parseProviderInfo extModel
        { NewOptions with
            Provider := "google", GoogleGroups := ["grp"] }
        []).1.openAttempted = false) := by
  have hb : parseProviderInfo ext o [] = googleBlock ext o [] := by
    rw [parseProviderInfo_ok_eq ext o hOK [], hv]
  rw [hb]
  refine ⟨?_, ?_, by decide, by decide⟩
  · intro hany
    by_cases hgr : o.GoogleGroups.length < 1 <;>
      by_cases hae : o.GoogleAdminEmail = "" <;>
        by_cases hjson : o.GoogleServiceAccountJSON = "" <;>
          cases hop : ext.osOpen o.GoogleServiceAccountJSON <;>
            simp [googleBlock, hany, hgr, hae, hjson, hop] <;>
              rcases hany with h | h | h <;>
                first
                  | exact h
                  | exact absurd hae h
                  | exact absurd hjson h
  · by_cases hjson : o.GoogleServiceAccountJSON = "" <;>
      cases hop : ext.osOpen o.GoogleServiceAccountJSON <;>
        simp [googleBlock, hjson, hop]

/-- Claim C6, witness: the general part applied to the scenario
options, confirming the two individually-reported missing settings. -/
theorem C6_witness :
    Msg.missingGoogleAdminEmail ∈
      (parseProviderInfo extModel
        { NewOptions with
            Provider := "google", GoogleGroups := ["grp"] } []).2 := by
  exact ((C6_theorem extModel
    { NewOptions with
        Provider := "google", GoogleGroups := ["grp"] }
    (by decide)
    ⟨⟨{ scheme := "", host := "", path := "" }, rfl⟩,
     ⟨{ scheme := "", host := "", path := "" }, rfl⟩,
     ⟨{ scheme := "", host := "", path := "" }, rfl⟩,
     ⟨{ scheme := "", host := "", path := "" }, rfl⟩,
     ⟨{ scheme := "", host := "", path := "" }, rfl⟩⟩).1
    (Or.inl (by decide))).2.1.mpr rfl

/-- Claim C7: every unparsable upstream entry is reported individually
and excluded while every parsable one accumulates in input order with
an empty path normalised to `/`; on the scenario list the first target
is accepted with path `/`, the second produces one parse-error message,
and the accepted list has exactly one entry. -/
theorem C7_theorem :
    (∀ (ext : Ext) (us : List String),
      (processUpstreams ext us).2 = us.filterMap (fun u =>
        match ext.urlParse u with
        | Except.error e => some (Msg.upstreamParseError e)
        | Except.ok _ => none) ∧
      (processUpstreams ext us).1 = us.filterMap (fun u =>
        match ext.urlParse u with
        | Except.error _ => none
        | Except.ok uu =>
          some (if uu.path = "" then { uu with path := "/" } else uu))) ∧
    processUpstreams extModel ["http://a:8080", "not a url"] =
      ([{ scheme := "http", host := "a:8080", path := "/" }],
       [Msg.upstreamParseError "parse not a url: invalid URL"]) := by
  refine ⟨?_, by decide⟩
  intro ext us
  induction us with
  | nil => simp [processUpstreams]
  | cons u rest ih =>
    cases hu : ext.urlParse u <;>
      simp [processUpstreams, hu, ih.1, ih.2, List.filterMap_cons]

/-- One `parseURL` call only appends to the accumulator. -/
lemma parseURL_snd_append (ext : Ext) (u t : String) (msgs : List Msg) :
    (parseURL ext u t msgs).2 = msgs ++ (parseURL ext u t []).2 := by
  cases h : ext.urlParse u <;> simp [parseURL, h]

/-- The five endpoint-URL parses of `parseProviderInfo` only append. -/
lemma urlChain_append (ext : Ext) (o : Options) (msgs : List Msg) :
    (parseURL ext o.ProtectedResource "resource"
      (parseURL ext o.ValidateURL "validate"
        (parseURL ext o.ProfileURL "profile"
          (parseURL ext o.RedeemURL "redeem"
            (parseURL ext o.LoginURL "login" msgs).2).2).2).2).2 =
    msgs ++
      (parseURL ext o.ProtectedResource "resource"
        (parseURL ext o.ValidateURL "validate"
          (parseURL ext o.ProfileURL "profile"
            (parseURL ext o.RedeemURL "redeem"
              (parseURL ext o.LoginURL "login" []).2).2).2).2).2 := by
  cases h1 : ext.urlParse o.LoginURL <;>
    cases h2 : ext.urlParse o.RedeemURL <;>
      cases h3 : ext.urlParse o.ProfileURL <;>
        cases h4 : ext.urlParse o.ValidateURL <;>
          cases h5 : ext.urlParse o.ProtectedResource <;>
            simp [parseURL, h1, h2, h3, h4, h5]

/-- The Google block only appends to the accumulator. -/
lemma googleBlock_append (ext : Ext) (o : Options) (msgs : List Msg) :
    googleBlock ext o msgs =
      ((googleBlock ext o []).1, msgs ++ (googleBlock ext o []).2) := by
  by_cases hany : 0 < o.GoogleGroups.length ∨ o.GoogleAdminEmail ≠ "" ∨
      o.GoogleServiceAccountJSON ≠ "" <;>
    by_cases hz : o.GoogleGroups.length = 0 <;>
      by_cases hae : o.GoogleAdminEmail = "" <;>
        by_cases hjson : o.GoogleServiceAccountJSON = "" <;>
          cases hop : ext.osOpen o.GoogleServiceAccountJSON <;>
            simp [googleBlock, hany, hz, hae, hjson, hop, Nat.lt_one_iff,
              Nat.pos_iff_ne_zero]

/-- The OIDC block only appends to the accumulator. -/
lemma oidcBlock_append (ext : Ext) (o : Options) (msgs : List Msg) :
    oidcBlock ext o msgs =
      ((oidcBlock ext o []).1, msgs ++ (oidcBlock ext o []).2) := by
  by_cases hiss : o.OIDCIssuerURL = "" <;>
    by_cases hskip : o.SkipOIDCDiscovery = true <;>
      by_cases hlog : o.LoginURL = "" <;>
        by_cases hrd : o.RedeemURL = "" <;>
          by_cases hjwks : o.OIDCJwksURL = "" <;>
            cases hsi : ext.setIssuerURL o.OIDCIssuerURL <;>
              simp [oidcBlock, hiss, hskip, hlog, hrd, hjwks, hsi]

/-- Function `parseProviderInfo` only appends to the accumulator. -/
lemma parseProviderInfo_append (ext : Ext) (o : Options) (msgs : List Msg) :
    parseProviderInfo ext o msgs =
      ((parseProviderInfo ext o []).1,
        msgs ++ (parseProviderInfo ext o []).2) := by
  simp only [parseProviderInfo]
  rw [urlChain_append]
  cases hv : providersNew o.Provider <;> simp only []
  case google =>
    rw [googleBlock_append, googleBlock_append ext o
      (parseURL ext o.ProtectedResource "resource"
        (parseURL ext o.ValidateURL "validate"
          (parseURL ext o.ProfileURL "profile"
            (parseURL ext o.RedeemURL "redeem"
              (parseURL ext o.LoginURL "login" []).2).2).2).2).2]
    simp
  case oidc =>
    rw [oidcBlock_append, oidcBlock_append ext o
      (parseURL ext o.ProtectedResource "resource"
        (parseURL ext o.ValidateURL "validate"
          (parseURL ext o.ProfileURL "profile"
            (parseURL ext o.RedeemURL "redeem"
              (parseURL ext o.LoginURL "login" []).2).2).2).2).2]
    simp

/-- Function `parseSignatureKey` only appends to the accumulator. -/
lemma parseSignatureKey_append (o : Options) (msgs : List Msg) :
    parseSignatureKey o msgs =
      ((parseSignatureKey o []).1, msgs ++ (parseSignatureKey o []).2) := by
  by_cases h : o.SignatureKey = ""
  · simp [parseSignatureKey, h]
  · rcases hs : goSplit o.SignatureKey ':' with _ | ⟨a, _ | ⟨b, _ | ⟨c, t⟩⟩⟩
    · simp [parseSignatureKey, h, hs]
    · simp [parseSignatureKey, h, hs]
    · cases hd : digestNameToCryptoHash a <;>
        simp [parseSignatureKey, h, hs, hd]
    · simp [parseSignatureKey, h, hs]

/-- Function `validateCookieName` only appends to the accumulator. -/
lemma validateCookieName_append (o : Options) (msgs : List Msg) :
    validateCookieName o msgs = msgs ++ validateCookieName o [] := by
  by_cases h : cookieString o.CookieName = "" <;>
    simp [validateCookieName, h]

/-- Claim C5: `Validate` returns no error exactly when no message was
collected; a non-empty collection yields the single aggregated error
joining all messages with indentation; and the collected sequence is
the concatenation of every check's own contribution in source order, so
no earlier failure suppresses a later check. -/
theorem C5_theorem (render : Msg → String) (ext : Ext) (o : Options) :
    (ValidateError render ext o = none ↔ (Validate ext o).msgs = []) ∧
    ((Validate ext o).msgs ≠ [] →
      ValidateError render ext o =
        some ("Invalid configuration:\x0a  " ++
          String.intercalate "\x0a  " ((Validate ext o).msgs.map render))) ∧
    (Validate ext o).msgs =
      sslCheck ext o ++ cookieSecretMissingCheck o ++ clientIDCheck o ++
      clientSecretCheck o ++ emailValidationCheck o ++
      (parseURL ext o.RedirectURL "redirect" []).2 ++
      (processUpstreams ext o.Upstreams).2 ++
      (processRegex ext o.SkipAuthRegex).2 ++
      (parseProviderInfo ext o []).2 ++
      cookieSecretSizeCheck o ++ refreshExpireCheck o ++ sameSiteCheck o ++
      (parseSignatureKey o []).2 ++ validateCookieName o [] ++
      realClientIPCheck o := by
  refine ⟨?_, ?_, ?_⟩
  · by_cases hm : (Validate ext o).msgs = [] <;>
      simp [ValidateError, hm]
  · intro hm
    simp [ValidateError, hm, aggregateError]
  · simp only [Validate]
    rw [parseURL_snd_append, parseProviderInfo_append,
      parseSignatureKey_append, validateCookieName_append]
    simp [List.append_assoc]

/-- Claim C5, witness: the default options are missing the cookie
secret, client id, client secret and email settings, and the aggregated
error joins those four messages. -/
theorem C5_witness :
    ValidateError (fun _ => "m") extModel NewOptions =
      some "Invalid configuration:\x0a  m\x0a  m\x0a  m\x0a  m" := by
  have h := (C5_theorem (fun _ => "m") extModel NewOptions).2.1 (by decide)
  rw [h]
  rfl

/-- Claim C10, witness: the failing 3-byte secret `abc` is reported
with length 3 and no decoded note. -/
theorem C10_witness :
    Msg.cookieSecretWrongSize 3 none ∈
      cookieSecretSizeCheck
        { NewOptions with PassAccessToken := true, CookieSecret := "abc" } ∧
    Msg.cookieSecretWrongSize 3 none =
      Msg.cookieSecretWrongSize (goBytes "abc").length none := by
  refine ⟨by decide, ?_⟩
  exact C10_theorem
    { NewOptions with PassAccessToken := true, CookieSecret := "abc" }
    (Msg.cookieSecretWrongSize 3 none) (by decide)

end OAuth2Proxy
